import Mathlib

/-!
# Teleoperation command pipeline — shallow embedding

Embedding of the teleoperation command pipeline of the WebUI dashboard
(src/App.tsx and src/JoystickClean.tsx).  Numeric samples and commands are
modelled as rationals; times in milliseconds are integers on the touch path
(differences of clock readings) and naturals for epoch timestamps.
-/

namespace WebUI

/-- Command-activity status signalled to the status surface.  `Active`
stands for the source string `Active 🟢`, `Idle` for `Idle ⚪` with colour
`#ccc` (JoystickClean.tsx:46,52 and App.tsx:241,244). -/
inductive StatusKind
  | Idle
  | Active
  | Error
  | Disconnected
  deriving DecidableEq

/-- ROS-style timestamp produced by `getROSTimestamp` (App.tsx:77-83). -/
structure Stamp where
  sec : ℕ
  nanosec : ℕ
  deriving DecidableEq

/-- Message header (App.tsx:87-90). -/
structure Header where
  frame_id : String
  stamp : Stamp
  deriving DecidableEq

/-- A 3-vector of the wire message (App.tsx:92-93). -/
structure Vector3 where
  x : ℚ
  y : ℚ
  z : ℚ
  deriving DecidableEq

/-- The twist part of the wire message (App.tsx:91-94). -/
structure Twist where
  linear : Vector3
  angular : Vector3
  deriving DecidableEq

/-- The outbound `geometry_msgs/msg/TwistStamped` message (App.tsx:86-95). -/
structure TwistStamped where
  header : Header
  twist : Twist
  deriving DecidableEq

/-- `getROSTimestamp` (App.tsx:77-83): from the capture time
`now = Date.now()` in milliseconds, `sec = Math.floor(now / 1000)` and
`nanosec = (now % 1000) * 1e6`.  `Date.now()` is a non-negative integer,
so `now : ℕ`, and `Nat` division is exactly `Math.floor` of the quotient. -/
def getROSTimestamp (now : ℕ) : Stamp :=
  { sec := now / 1000, nanosec := now % 1000 * 1000000 }

/-- `buildTwistStamped` (App.tsx:85-96). -/
def buildTwistStamped (now : ℕ) (linX angZ : ℚ) : TwistStamped :=
  { header := { frame_id := "base_link", stamp := getROSTimestamp now },
    twist := { linear := { x := linX, y := 0, z := 0 },
               angular := { x := 0, y := 0, z := angZ } } }

/-- `publishTwist` (App.tsx:98-102): the message is published only when the
`/cmd_vel` topic handle `cmdVelRef.current` is non-null.  The transport is
modelled by the optional handle `cmdVel` together with the list `sent` of
messages published so far; a call while the handle is absent leaves the
list unchanged (silent no-op), and the function is total (no error is ever
raised to the caller). -/
def publishTwist (cmdVel : Option Unit) (sent : List TwistStamped) (now : ℕ)
    (lx az : ℚ) : List TwistStamped :=
  match cmdVel with
  | some _ => sent ++ [buildTwistStamped now lx az]
  | none => sent

/-- `applyEasing` (JoystickClean.tsx:23-29): normalize to `value / 100`,
take `Math.sign` and `Math.abs`, square the magnitude and re-apply the
sign.  `Math.sign` is 1 on positives, -1 on negatives and 0 at 0. -/
def applyEasing (value : ℚ) : ℚ :=
  let normalized := value / 100
  let sign : ℚ := if 0 < normalized then 1 else if normalized < 0 then -1 else 0
  let mag := |normalized|
  let eased := mag * mag
  sign * eased

/-- The easing curve as the specification writes it:
`sign(raw/100) * |raw/100|^2`, here with Mathlib's sign function.  Stated
separately from `applyEasing` (which is translated from the source) so that
the two can be compared. -/
def easeSpecFormula (raw : ℚ) : ℚ :=
  (SignType.sign (raw / 100) : ℚ) * |raw / 100| ^ 2

/-- A touch move event from the joystick widget: each axis is `null` or a
value in `[-100, 100]` (JoystickClean.tsx:32). -/
structure MoveEvent where
  x : Option ℚ
  y : Option ℚ

/-- Mutable state of the touch input source: the `lastMoveTime` ref in
milliseconds (JoystickClean.tsx:20), initialised to 0. -/
structure TouchState where
  lastMoveTime : ℤ
  deriving DecidableEq

/-- `handleMove` (JoystickClean.tsx:31-48) as a state transformer: given
the multipliers, the current `lastMoveTime` state, the current clock
reading `now = Date.now()` and the event, it returns the new state, the
pair passed to `onMove` (`none` when nothing is emitted) and the status
signalled through `onStatusUpdate` (`none` when no update is made). -/
def handleMove (linearMul angularMul : ℚ) (st : TouchState) (now : ℤ)
    (event : MoveEvent) : TouchState × Option (ℚ × ℚ) × Option StatusKind :=
  match event.x, event.y with
  | some ex, some ey =>
    if now - st.lastMoveTime < 30 then (st, none, none)
    else
      let st' : TouchState := ⟨now⟩
      let easedY := applyEasing ey
      let easedX := applyEasing ex
      let lin := easedY * linearMul
      let ang := -easedX * angularMul
      if 1/100 < |lin| ∨ 1/100 < |ang| then
        (st', some (lin, ang), some StatusKind.Active)
      else
        (st', none, none)
  | _, _ => (st, none, none)

/-- The release path: `handleStop` (JoystickClean.tsx:50-53) calls `onEnd`,
which is `handleJoystickEnd` (App.tsx:117-120) and publishes `(0, 0)`
through `publishTwist`, and then signals Idle.  It never reads or writes
`lastMoveTime`. -/
def handleStop (cmdVel : Option Unit) (sent : List TwistStamped) (now : ℕ)
    (st : TouchState) : TouchState × List TwistStamped × StatusKind :=
  (st, publishTwist cmdVel sent now 0 0, StatusKind.Idle)

/-- Axis state of a pad present at one poll: `axes[0] = x`, `axes[1] = y`
(App.tsx:233-234). -/
structure GamepadPad where
  axis0 : ℚ
  axis1 : ℚ

/-- One tick of `pollGamepad` (App.tsx:230-248).  `trackedIdx` is
`gamepadIdxRef.current`; `getGamepads i` is `navigator.getGamepads()[i]`,
`none` when the entry is null or out of range.  When `trackedIdx` is null
the source indexes the array with `null`, which yields `undefined`, hence
the `none` branch.  Returns the pair given to `publishTwist` (`none` when
no device was read), the status update made (`none` when none), and
whether the tick reschedules the loop via `requestAnimationFrame`
(App.tsx:247: exactly when the tracked index is non-null). -/
def pollGamepad (linearMul angularMul : ℚ) (trackedIdx : Option ℕ)
    (getGamepads : ℕ → Option GamepadPad) :
    Option (ℚ × ℚ) × Option StatusKind × Bool :=
  let gp := match trackedIdx with
    | some i => getGamepads i
    | none => none
  match gp with
  | some pad =>
    let x := pad.axis0
    let y := pad.axis1
    let deadzone : ℚ := 1/10
    let lin := if deadzone < |y| then -y * linearMul else 0
    let ang := if deadzone < |x| then -x * angularMul else 0
    let status := if lin ≠ 0 ∨ ang ≠ 0 then StatusKind.Active else StatusKind.Idle
    (some (lin, ang), some status, trackedIdx.isSome)
  | none => (none, none, trackedIdx.isSome)

/-- `handleGamepadDisconnected` (App.tsx:225-228): the handler body only
clears the tracked index and writes a log line; it contains no
`publishTwist` call, so the emission component is always `none`. -/
def handleGamepadDisconnected (_tracked : Option ℕ) :
    Option ℕ × Option (ℚ × ℚ) :=
  (none, none)

/-- The message list after one gamepad tick: the tick feeds the pair from
`pollGamepad` straight into `publishTwist` (App.tsx:239). -/
def pollGamepadPublish (linearMul angularMul : ℚ) (trackedIdx : Option ℕ)
    (getGamepads : ℕ → Option GamepadPad) (cmdVel : Option Unit)
    (sent : List TwistStamped) (now : ℕ) : List TwistStamped :=
  match (pollGamepad linearMul angularMul trackedIdx getGamepads).1 with
  | some pair => publishTwist cmdVel sent now pair.1 pair.2
  | none => sent

/-- Applying a status update to the current command-activity status:
`updateStatus` (App.tsx:67-75) simply overwrites the stored value. -/
def applyStatusUpdate (upd : Option StatusKind) (cur : StatusKind) : StatusKind :=
  match upd with
  | some s => s
  | none => cur

/-- Scheduling state of the gamepad polling loop: the tracked device index
`gamepadIdxRef.current` and the number of `pollGamepad` callbacks currently
scheduled through `requestAnimationFrame`.  Each scheduled callback is one
self-rescheduling loop. -/
structure GamepadLoopState where
  trackedIdx : Option ℕ
  pendingLoops : ℕ
  deriving DecidableEq

/-- Events driving the gamepad loop scheduler. -/
inductive GamepadEvent
  | connect (i : ℕ)
  | disconnect
  | frameTick
  deriving DecidableEq

/-- One scheduler step (App.tsx:219-248):
* `connect i` runs `handleGamepadConnected`: it stores the index and calls
  `requestAnimationFrame(pollGamepad)`, scheduling one more callback; it
  does not cancel a callback that is already scheduled;
* `disconnect` runs `handleGamepadDisconnected`: it only clears the index;
* `frameTick` runs one scheduled callback, if any: at its end the callback
  reschedules itself exactly when the tracked index is non-null
  (App.tsx:247). -/
def gamepadSchedStep (s : GamepadLoopState) : GamepadEvent → GamepadLoopState
  | .connect i => ⟨some i, s.pendingLoops + 1⟩
  | .disconnect => ⟨none, s.pendingLoops⟩
  | .frameTick =>
    if s.pendingLoops = 0 then s
    else ⟨s.trackedIdx,
          s.pendingLoops - 1 + (if s.trackedIdx.isSome then 1 else 0)⟩

/-- Run the scheduler over a sequence of events. -/
def gamepadSchedRun (s : GamepadLoopState) : List GamepadEvent → GamepadLoopState
  | [] => s
  | e :: es => gamepadSchedRun (gamepadSchedStep s e) es

/-- Initial scheduler state: no device tracked, no loop scheduled. -/
def gamepadInit : GamepadLoopState := ⟨none, 0⟩

/-! ## Helper lemmas -/

/-- Closed form of the easing curve: `applyEasing v = (v/100) * |v/100|`. -/
theorem applyEasing_eq (v : ℚ) : applyEasing v = v / 100 * |v / 100| := by
  rcases lt_trichotomy (v / 100) 0 with h | h | h
  · simp only [applyEasing, if_neg (not_lt.mpr h.le), if_pos h, abs_of_neg h]
    ring
  · simp [applyEasing, h]
  · simp only [applyEasing, if_pos h, abs_of_pos h]
    ring

/-- The source easing and the spec formula agree everywhere. -/
theorem applyEasing_eq_spec (v : ℚ) : applyEasing v = easeSpecFormula v := by
  rw [applyEasing_eq, easeSpecFormula]
  rcases lt_trichotomy (v / 100) 0 with h | h | h
  · rw [sign_neg h, abs_of_neg h, SignType.coe_neg_one]
    ring
  · rw [h]
    simp
  · rw [sign_pos h, abs_of_pos h, SignType.coe_one]
    ring

/-- The map `a ↦ a * |a|` is monotone. -/
theorem mul_abs_self_mono {a b : ℚ} (h : a ≤ b) : a * |a| ≤ b * |b| := by
  rcases le_or_lt 0 a with ha | ha
  · rw [abs_of_nonneg ha, abs_of_nonneg (ha.trans h)]
    exact mul_self_le_mul_self ha h
  · rcases le_or_lt 0 b with hb | hb
    · rw [abs_of_neg ha, abs_of_nonneg hb]
      nlinarith
    · rw [abs_of_neg ha, abs_of_neg hb]
      nlinarith

/-- Evaluation of `handleMove` on an event that passes the null-axis check
and the throttle. -/
theorem handleMove_eval (linearMul angularMul : ℚ) (st : TouchState)
    (now : ℤ) (ex ey : ℚ) (ht : ¬ (now - st.lastMoveTime < 30)) :
    handleMove linearMul angularMul st now ⟨some ex, some ey⟩ =
      if 1/100 < |applyEasing ey * linearMul| ∨
         1/100 < |-applyEasing ex * angularMul| then
        (⟨now⟩,
         some (applyEasing ey * linearMul, -applyEasing ex * angularMul),
         some StatusKind.Active)
      else (⟨now⟩, none, none) := by
  simp only [handleMove]
  rw [if_neg ht]

/-- `handleMove` on a throttled event: nothing is emitted and the state is
unchanged, whatever the axes carry. -/
theorem handleMove_of_lt (linearMul angularMul : ℚ) (st : TouchState)
    (now : ℤ) (event : MoveEvent) (h : now - st.lastMoveTime < 30) :
    handleMove linearMul angularMul st now event = (st, none, none) := by
  obtain ⟨ox, oy⟩ := event
  cases ox <;> cases oy <;> simp [handleMove, h]

/-- An accepted event always updates the throttle timer to the event time,
whether or not it passes the magnitude gate. -/
theorem handleMove_state_eval (linearMul angularMul : ℚ) (st : TouchState)
    (now : ℤ) (ex ey : ℚ) (ht : ¬ (now - st.lastMoveTime < 30)) :
    (handleMove linearMul angularMul st now ⟨some ex, some ey⟩).1 = ⟨now⟩ := by
  rw [handleMove_eval _ _ _ _ _ _ ht]
  split <;> rfl

/-- Concrete easing values used by the scenarios. -/
theorem applyEasing_zero : applyEasing 0 = 0 := by
  rw [applyEasing_eq]
  norm_num

theorem applyEasing_fifty : applyEasing 50 = 1/4 := by
  rw [applyEasing_eq, abs_of_pos (by norm_num : (0:ℚ) < 50 / 100)]
  norm_num

theorem applyEasing_hundred : applyEasing 100 = 1 := by
  rw [applyEasing_eq, abs_of_pos (by norm_num : (0:ℚ) < 100 / 100)]
  norm_num

/-- The last element of a list after appending one element. -/
theorem getLast?_append_singleton {α : Type} (l : List α) (a : α) :
    (l ++ [a]).getLast? = some a := by
  rw [List.getLast?_append_cons]
  rfl

/-! ## Claims -/

/-- C1: for every move event that passes the null-axis check and the 30ms
throttle, the handler computes `lin = ease(y) * linearMul` and
`ang = -ease(x) * angularMul`, and emits the pair together with an Active
status update exactly when `|lin| > 0.01` or `|ang| > 0.01`; when both
magnitudes are at most `0.01` nothing is emitted and no status update is
made.  At `x = 50`, `y = 0`, `angularMul = 1` the emitted command is
`(0, -0.25)` for every `linearMul`. -/
theorem claim_C1 (linearMul angularMul : ℚ) (st : TouchState) (now : ℤ)
    (event : MoveEvent) (ex ey : ℚ) (hx : event.x = some ex)
    (hy : event.y = some ey) (ht : 30 ≤ now - st.lastMoveTime) :
    (((handleMove linearMul angularMul st now event).2.1 =
        some (applyEasing ey * linearMul, -applyEasing ex * angularMul) ∧
      (handleMove linearMul angularMul st now event).2.2 =
        some StatusKind.Active) ↔
      (1/100 < |applyEasing ey * linearMul| ∨
       1/100 < |-applyEasing ex * angularMul|)) ∧
    (¬ (1/100 < |applyEasing ey * linearMul| ∨
        1/100 < |-applyEasing ex * angularMul|) →
      (handleMove linearMul angularMul st now event).2.1 = none ∧
      (handleMove linearMul angularMul st now event).2.2 = none) ∧
    (∀ lm : ℚ,
      (handleMove lm 1 ⟨0⟩ 100 ⟨some 50, some 0⟩).2.1 = some (0, -(1/4)) ∧
      (handleMove lm 1 ⟨0⟩ 100 ⟨some 50, some 0⟩).2.2 =
        some StatusKind.Active) := by
  obtain ⟨evx, evy⟩ := event
  have hx' : evx = some ex := hx
  have hy' : evy = some ey := hy
  subst hx'
  subst hy'
  have he := handleMove_eval linearMul angularMul st now ex ey (not_lt.mpr ht)
  refine ⟨?_, ?_, ?_⟩
  · rw [he]
    by_cases hmag : 1/100 < |applyEasing ey * linearMul| ∨
        1/100 < |-applyEasing ex * angularMul|
    · rw [if_pos hmag]
      exact iff_of_true ⟨rfl, rfl⟩ hmag
    · rw [if_neg hmag]
      exact iff_of_false (fun h => Option.noConfusion h.1) hmag
  · intro hmag
    rw [he, if_neg hmag]
    exact ⟨rfl, rfl⟩
  · intro lm
    have he2 := handleMove_eval lm 1 ⟨0⟩ 100 50 0 (by decide)
    rw [applyEasing_zero, applyEasing_fifty] at he2
    have hcond : (1:ℚ)/100 < |(0:ℚ) * lm| ∨
        (1:ℚ)/100 < |(-(1/4) : ℚ) * 1| := by
      right
      rw [abs_of_nonpos (by norm_num : ((-(1/4) : ℚ)) * 1 ≤ 0)]
      norm_num
    rw [he2, if_pos hcond]
    exact ⟨by simp, rfl⟩

/-- Witness for C1 at the end-to-end scenario input. -/
theorem claim_C1_witness :
    (handleMove (1/2) 1 ⟨0⟩ 100 ⟨some 50, some 0⟩).2.1 = some (0, -(1/4)) ∧
    (handleMove (1/2) 1 ⟨0⟩ 100 ⟨some 50, some 0⟩).2.2 =
      some StatusKind.Active :=
  (claim_C1 (1/2) 1 ⟨0⟩ 100 ⟨some 50, some 0⟩ 50 0 rfl rfl
    (by decide)).2.2 (1/2)

/-- C2: on every poll tick with the tracked device present, exactly one
command is published; its linear part is `-y * linearMul` when
`|y| > 0.1` and exactly 0 when `|y| ≤ 0.1`, and its angular part is
`-x * angularMul` when `|x| > 0.1` and exactly 0 when `|x| ≤ 0.1` (no
quadratic easing on this path); the message is published on every such
tick regardless of magnitude — no throttle and no magnitude filter. -/
theorem claim_C2 (linearMul angularMul : ℚ) (trackedIdx : Option ℕ)
    (getGamepads : ℕ → Option GamepadPad) (i : ℕ) (pad : GamepadPad)
    (hidx : trackedIdx = some i) (hpad : getGamepads i = some pad) :
    (∃ lin ang : ℚ,
      (pollGamepad linearMul angularMul trackedIdx getGamepads).1 =
        some (lin, ang) ∧
      (1/10 < |pad.axis1| → lin = -pad.axis1 * linearMul) ∧
      (|pad.axis1| ≤ 1/10 → lin = 0) ∧
      (1/10 < |pad.axis0| → ang = -pad.axis0 * angularMul) ∧
      (|pad.axis0| ≤ 1/10 → ang = 0)) ∧
    (∀ (sent : List TwistStamped) (now : ℕ),
      (pollGamepadPublish linearMul angularMul trackedIdx getGamepads
        (some ()) sent now).length = sent.length + 1) := by
  subst hidx
  have hpoll : (pollGamepad linearMul angularMul (some i) getGamepads).1 =
      some (if 1/10 < |pad.axis1| then -pad.axis1 * linearMul else 0,
            if 1/10 < |pad.axis0| then -pad.axis0 * angularMul else 0) := by
    simp only [pollGamepad, hpad]
  refine ⟨⟨_, _, hpoll, ?_, ?_, ?_, ?_⟩, fun sent now => ?_⟩
  · intro h
    rw [if_pos h]
  · intro h
    rw [if_neg (not_lt.mpr h)]
  · intro h
    rw [if_pos h]
  · intro h
    rw [if_neg (not_lt.mpr h)]
  · simp [pollGamepadPublish, hpoll, publishTwist]

/-- Witness for C2 at a concrete pad sample. -/
theorem claim_C2_witness :
    (∃ lin ang : ℚ,
      (pollGamepad 1 1 (some 0) (fun _ => some ⟨1/2, 1/2⟩)).1 =
        some (lin, ang) ∧
      ((1:ℚ)/10 < |(1:ℚ)/2| → lin = -(1/2) * 1) ∧
      (|(1:ℚ)/2| ≤ 1/10 → lin = 0) ∧
      ((1:ℚ)/10 < |(1:ℚ)/2| → ang = -(1/2) * 1) ∧
      (|(1:ℚ)/2| ≤ 1/10 → ang = 0)) ∧
    (∀ (sent : List TwistStamped) (now : ℕ),
      (pollGamepadPublish 1 1 (some 0) (fun _ => some ⟨1/2, 1/2⟩)
        (some ()) sent now).length = sent.length + 1) :=
  claim_C2 1 1 (some 0) (fun _ => some ⟨1/2, 1/2⟩) 0 ⟨1/2, 1/2⟩ rfl rfl

/-- C3: on every raw input in `[-100, 100]` the easing function equals
`sign(raw/100) * |raw/100|^2`; it satisfies `ease 0 = 0`, `ease 100 = 1`,
`ease (-100) = -1`, odd symmetry on the domain, and is monotone
non-decreasing on the domain.  Purity is reflected by the embedding of
`applyEasing` as a total function of its argument alone. -/
theorem claim_C3 :
    (∀ raw : ℚ, -100 ≤ raw → raw ≤ 100 →
      applyEasing raw = easeSpecFormula raw) ∧
    applyEasing 0 = 0 ∧ applyEasing 100 = 1 ∧ applyEasing (-100) = -1 ∧
    (∀ x : ℚ, -100 ≤ x → x ≤ 100 → applyEasing (-x) = -applyEasing x) ∧
    (∀ x y : ℚ, -100 ≤ x → x ≤ y → y ≤ 100 →
      applyEasing x ≤ applyEasing y) := by
  refine ⟨fun raw _ _ => applyEasing_eq_spec raw, by norm_num [applyEasing_eq],
    by norm_num [applyEasing_eq], by norm_num [applyEasing_eq],
    fun x _ _ => ?_, fun x y _ hxy _ => ?_⟩
  · rw [applyEasing_eq, applyEasing_eq, neg_div, abs_neg]
    ring
  · rw [applyEasing_eq, applyEasing_eq]
    exact mul_abs_self_mono (by linarith)

/-- Witness for C3 at concrete inputs. -/
theorem claim_C3_witness :
    applyEasing 50 = easeSpecFormula 50 ∧
    applyEasing (-50) = -applyEasing 50 ∧
    applyEasing 30 ≤ applyEasing 60 :=
  ⟨claim_C3.1 50 (by norm_num) (by norm_num),
   claim_C3.2.2.2.2.1 50 (by norm_num) (by norm_num),
   claim_C3.2.2.2.2.2 30 60 (by norm_num) (by norm_num) (by norm_num)⟩

/-- C4: a release event, in every throttle state, leaves `lastMoveTime`
untouched, publishes exactly the stop command `(0, 0)` — one appended
message whose linear.x and angular.z are 0, with no throttle check and no
magnitude check on this path — and sets the command-activity status to
Idle. -/
theorem claim_C4 (sent : List TwistStamped) (now : ℕ) (st : TouchState) :
    (handleStop (some ()) sent now st).1 = st ∧
    (handleStop (some ()) sent now st).2.1 =
      sent ++ [buildTwistStamped now 0 0] ∧
    (buildTwistStamped now 0 0).twist.linear.x = 0 ∧
    (buildTwistStamped now 0 0).twist.angular.z = 0 ∧
    (handleStop (some ()) sent now st).2.2 = StatusKind.Idle :=
  ⟨rfl, rfl, rfl, rfl, rfl⟩

/-- C5: an event arriving fewer than 30ms after the last accepted event is
rejected with no emission and without updating `lastMoveTime`; the timer
is updated only when an event passes the null-axis check and the throttle
(and is then set to the event time); two move events 10ms apart yield at
most one emission; two events 40ms apart may both emit (shown on a
concrete run). -/
theorem claim_C5 (linearMul angularMul : ℚ) :
    (∀ (st : TouchState) (now : ℤ) (event : MoveEvent),
      now - st.lastMoveTime < 30 →
      handleMove linearMul angularMul st now event = (st, none, none)) ∧
    (∀ (st : TouchState) (now : ℤ) (event : MoveEvent),
      (handleMove linearMul angularMul st now event).1 ≠ st →
      (∃ ex ey, event.x = some ex ∧ event.y = some ey) ∧
        30 ≤ now - st.lastMoveTime ∧
        (handleMove linearMul angularMul st now event).1 = ⟨now⟩) ∧
    (∀ (st : TouchState) (t : ℤ) (e1 e2 : MoveEvent),
      (handleMove linearMul angularMul st t e1).2.1 = none ∨
      (handleMove linearMul angularMul
        (handleMove linearMul angularMul st t e1).1 (t + 10) e2).2.1 =
        none) ∧
    ((handleMove (1/2) 1 ⟨0⟩ 100 ⟨some 100, some 100⟩).2.1 ≠ none ∧
     (handleMove (1/2) 1
        (handleMove (1/2) 1 ⟨0⟩ 100 ⟨some 100, some 100⟩).1 140
        ⟨some 100, some 100⟩).2.1 ≠ none) := by
  have hc12 : (1:ℚ)/100 < |1 * ((1:ℚ)/2)| := by
    rw [abs_of_pos (by norm_num : (0:ℚ) < 1 * (1/2))]
    norm_num
  have hfirst : handleMove (1/2) 1 ⟨0⟩ 100 ⟨some 100, some 100⟩ =
      (⟨100⟩, some (1/2, -1), some StatusKind.Active) := by
    rw [handleMove_eval _ _ _ _ _ _ (by decide), applyEasing_hundred,
      if_pos (Or.inl hc12)]
    norm_num
  have hsecond : handleMove (1/2) 1 ⟨100⟩ 140 ⟨some 100, some 100⟩ =
      (⟨140⟩, some (1/2, -1), some StatusKind.Active) := by
    rw [handleMove_eval _ _ _ _ _ _ (by decide), applyEasing_hundred,
      if_pos (Or.inl hc12)]
    norm_num
  have hd1 : (handleMove (1/2) 1 ⟨0⟩ 100 ⟨some 100, some 100⟩).2.1 ≠ none := by
    rw [hfirst]
    simp
  have hd2 : (handleMove (1/2) 1
      (handleMove (1/2) 1 ⟨0⟩ 100 ⟨some 100, some 100⟩).1 140
      ⟨some 100, some 100⟩).2.1 ≠ none := by
    rw [hfirst]
    show (handleMove (1/2) 1 ⟨100⟩ 140 ⟨some 100, some 100⟩).2.1 ≠ none
    rw [hsecond]
    simp
  refine ⟨fun st now event h => handleMove_of_lt _ _ _ _ _ h,
    fun st now event hne => ?_, fun st t e1 e2 => ?_, hd1, hd2⟩
  · obtain ⟨ox, oy⟩ := event
    rcases ox with _ | ex
    · exact absurd (by simp [handleMove]) hne
    rcases oy with _ | ey
    · exact absurd (by simp [handleMove]) hne
    by_cases hlt : now - st.lastMoveTime < 30
    · rw [handleMove_of_lt _ _ _ _ _ hlt] at hne
      exact absurd rfl hne
    · refine ⟨⟨ex, ey, rfl, rfl⟩, not_lt.mp hlt,
        handleMove_state_eval _ _ _ _ _ _ hlt⟩
  · obtain ⟨ox, oy⟩ := e1
    rcases ox with _ | ex1
    · left
      simp [handleMove]
    rcases oy with _ | ey1
    · left
      simp [handleMove]
    by_cases h1 : t - st.lastMoveTime < 30
    · left
      rw [handleMove_of_lt _ _ _ _ _ h1]
    · right
      have h1st :
          (handleMove linearMul angularMul st t ⟨some ex1, some ey1⟩).1 =
            ⟨t⟩ := by
        rw [handleMove_eval _ _ _ _ _ _ h1]
        split <;> rfl
      rw [h1st, handleMove_of_lt _ _ ⟨t⟩ (t + 10) e2
        (by show t + 10 - t < 30; omega)]

/-- Witness for C5 at concrete inputs: a throttled event 10ms after the
last accepted one, and a timer update by an accepted event. -/
theorem claim_C5_witness :
    handleMove 1 1 ⟨100⟩ 110 ⟨some 80, some 80⟩ = (⟨100⟩, none, none) ∧
    ((∃ ex ey, (⟨some 100, some 100⟩ : MoveEvent).x = some ex ∧
        (⟨some 100, some 100⟩ : MoveEvent).y = some ey) ∧
      30 ≤ (100 : ℤ) - (⟨0⟩ : TouchState).lastMoveTime ∧
      (handleMove 1 1 ⟨0⟩ 100 ⟨some 100, some 100⟩).1 = ⟨100⟩) :=
  ⟨(claim_C5 1 1).1 ⟨100⟩ 110 ⟨some 80, some 80⟩ (by decide),
   (claim_C5 1 1).2.1 ⟨0⟩ 100 ⟨some 100, some 100⟩
     (by rw [handleMove_state_eval 1 1 ⟨0⟩ 100 100 100 (by decide)]
         decide)⟩

/-- C6: a disconnect event clears the tracked index and emits nothing; the
next tick with a cleared index publishes nothing and does not reschedule
the loop; a tick whose tracked device is absent is a missed tick — it
publishes nothing but keeps the loop alive.  The disconnect event is thus
the sole cancellation trigger. -/
theorem claim_C6 (linearMul angularMul : ℚ)
    (getGamepads : ℕ → Option GamepadPad) :
    (∀ tracked, handleGamepadDisconnected tracked = (none, none)) ∧
    pollGamepad linearMul angularMul none getGamepads = (none, none, false) ∧
    (∀ i, getGamepads i = none →
      pollGamepad linearMul angularMul (some i) getGamepads =
        (none, none, true)) := by
  refine ⟨fun _ => rfl, rfl, fun i h => ?_⟩
  simp [pollGamepad, h]

/-- Witness for C6: a concrete tick with the pad array empty. -/
theorem claim_C6_witness :
    pollGamepad 1 1 (some 0) (fun _ => none) = (none, none, true) :=
  (claim_C6 1 1 (fun _ => none)).2.2 0 rfl

/-- C7: when the transport topic handle is absent, `publishTwist` is a
silent no-op: the message list is unchanged (no message sent, no state
changed), and being a total function it never raises an error to the
caller. -/
theorem claim_C7 (sent : List TwistStamped) (now : ℕ) (lx az : ℚ) :
    publishTwist none sent now lx az = sent := rfl

/-- C8 as stated is false on the code: connecting a second device while one
is already tracked replaces the index and schedules a fresh callback, but
does not cancel the earlier self-rescheduling loop — two loops are then
pending, and frame ticks keep both alive. -/
theorem claim_C8_counterexample :
    (gamepadSchedRun gamepadInit
        [GamepadEvent.connect 0, GamepadEvent.connect 1]).pendingLoops = 2 ∧
    ¬ (gamepadSchedRun gamepadInit
        [GamepadEvent.connect 0, GamepadEvent.connect 1]).pendingLoops ≤ 1 ∧
    (gamepadSchedRun gamepadInit
        [GamepadEvent.connect 0, GamepadEvent.connect 1,
         GamepadEvent.frameTick, GamepadEvent.frameTick]).pendingLoops = 2 := by
  decide

/-- C8 amended: every connect event replaces the tracked index and
schedules one fresh self-rescheduling loop without cancelling loops that
are already pending (so a connect while a loop is pending leaves two
concurrent loops); a pending loop stops rescheduling itself only once the
index is cleared, each frame tick then retiring one pending loop, while a
tick with a tracked index keeps the pending-loop count unchanged. -/
theorem claim_C8 (s : GamepadLoopState) (i : ℕ) :
    gamepadSchedStep s (GamepadEvent.connect i) =
      ⟨some i, s.pendingLoops + 1⟩ ∧
    (s.trackedIdx = none → s.pendingLoops ≠ 0 →
      (gamepadSchedStep s GamepadEvent.frameTick).pendingLoops =
        s.pendingLoops - 1) ∧
    (∀ j, s.trackedIdx = some j →
      (gamepadSchedStep s GamepadEvent.frameTick).pendingLoops =
        s.pendingLoops) := by
  refine ⟨rfl, fun hnone hne => ?_, fun j hj => ?_⟩
  · simp [gamepadSchedStep, hnone, hne]
  · by_cases h0 : s.pendingLoops = 0
    · simp [gamepadSchedStep, h0]
    · simp only [gamepadSchedStep, if_neg h0, hj, Option.isSome_some,
        if_pos trivial, if_true]
      omega

/-- Witness for C8 at concrete scheduler states. -/
theorem claim_C8_witness :
    gamepadSchedStep ⟨none, 2⟩ (GamepadEvent.connect 5) = ⟨some 5, 3⟩ ∧
    (gamepadSchedStep ⟨none, 2⟩ GamepadEvent.frameTick).pendingLoops = 1 ∧
    (gamepadSchedStep ⟨some 0, 2⟩ GamepadEvent.frameTick).pendingLoops = 2 :=
  ⟨(claim_C8 ⟨none, 2⟩ 5).1, (claim_C8 ⟨none, 2⟩ 5).2.1 rfl (by decide),
   (claim_C8 ⟨some 0, 2⟩ 5).2.2 0 rfl⟩

/-- C9: every published message has exactly the wire shape with
`frame_id = "base_link"`, `linear = (lin, 0, 0)`, `angular = (0, 0, ang)`,
and a stamp derived from the capture time in milliseconds with
`sec = floor(now / 1000)` (characterised by the two inequalities) and
`nanosec = (now mod 1000) * 10^6`, which always lies in `[0, 10^9)`. -/
theorem claim_C9 (now : ℕ) (lin ang : ℚ) :
    (buildTwistStamped now lin ang).header.frame_id = "base_link" ∧
    (buildTwistStamped now lin ang).twist.linear = ⟨lin, 0, 0⟩ ∧
    (buildTwistStamped now lin ang).twist.angular = ⟨0, 0, ang⟩ ∧
    (buildTwistStamped now lin ang).header.stamp = getROSTimestamp now ∧
    1000 * (getROSTimestamp now).sec ≤ now ∧
    now < 1000 * (getROSTimestamp now).sec + 1000 ∧
    (getROSTimestamp now).nanosec =
      (now - 1000 * (getROSTimestamp now).sec) * 1000000 ∧
    (getROSTimestamp now).nanosec < 1000000000 := by
  refine ⟨rfl, rfl, rfl, rfl, ?_, ?_, ?_, ?_⟩ <;>
    simp only [getROSTimestamp] <;> omega

/-- C10: on every poll tick with the tracked device present and both axes
inside the 0.1 deadzone, the tick still publishes `(0, 0)` and sets the
command-activity status to Idle whatever its prior value — so a touch-set
Active status and any touch-emitted command are overwritten at frame rate
by an idle connected gamepad: after the tick the message list ends with
the freshly built `(0, 0)` message. -/
theorem claim_C10 (linearMul angularMul : ℚ) (trackedIdx : Option ℕ)
    (getGamepads : ℕ → Option GamepadPad) (i : ℕ) (pad : GamepadPad)
    (hidx : trackedIdx = some i) (hpad : getGamepads i = some pad)
    (hx : |pad.axis0| ≤ 1/10) (hy : |pad.axis1| ≤ 1/10) :
    (pollGamepad linearMul angularMul trackedIdx getGamepads).1 =
      some (0, 0) ∧
    (∀ prior, applyStatusUpdate
        (pollGamepad linearMul angularMul trackedIdx getGamepads).2.1
        prior = StatusKind.Idle) ∧
    (∀ (sent : List TwistStamped) (now : ℕ),
      pollGamepadPublish linearMul angularMul trackedIdx getGamepads
          (some ()) sent now = sent ++ [buildTwistStamped now 0 0] ∧
      (pollGamepadPublish linearMul angularMul trackedIdx getGamepads
          (some ()) sent now).getLast? =
        some (buildTwistStamped now 0 0)) := by
  subst hidx
  have hy' : ¬ (1/10 < |pad.axis1|) := not_lt.mpr hy
  have hx' : ¬ (1/10 < |pad.axis0|) := not_lt.mpr hx
  have hpoll : pollGamepad linearMul angularMul (some i) getGamepads =
      (some (0, 0), some StatusKind.Idle, true) := by
    simp only [pollGamepad, hpad]
    rw [if_neg hy', if_neg hx']
    simp
  refine ⟨by rw [hpoll],
    fun prior => by rw [hpoll]; simp [applyStatusUpdate],
    fun sent now => ?_⟩
  constructor
  · simp [pollGamepadPublish, hpoll, publishTwist]
  · simp [pollGamepadPublish, hpoll, publishTwist]

/-- Witness for C10 at a concrete idle pad. -/
theorem claim_C10_witness :
    (pollGamepad 1 1 (some 0) (fun _ => some ⟨0, 0⟩)).1 = some (0, 0) ∧
    (∀ prior, applyStatusUpdate
        (pollGamepad 1 1 (some 0) (fun _ => some ⟨0, 0⟩)).2.1 prior =
      StatusKind.Idle) ∧
    (∀ (sent : List TwistStamped) (now : ℕ),
      pollGamepadPublish 1 1 (some 0) (fun _ => some ⟨0, 0⟩)
          (some ()) sent now = sent ++ [buildTwistStamped now 0 0] ∧
      (pollGamepadPublish 1 1 (some 0) (fun _ => some ⟨0, 0⟩)
          (some ()) sent now).getLast? =
        some (buildTwistStamped now 0 0)) :=
  claim_C10 1 1 (some 0) (fun _ => some ⟨0, 0⟩) 0 ⟨0, 0⟩ rfl rfl
    (by norm_num) (by norm_num)

end WebUI
